import Mathlib

/-
Verification development for the markdown image downloader
(class MarkdownImageDownloader and the batch entry point in draft/main.py).

Text is modelled as `List Char`.  The five regular expressions used by the
source are linear sequences of literal characters and repetitions of
single-character classes; they are embedded as `RItem` sequences and
interpreted by a backtracking matcher with the semantics of Python's `re`
module (leftmost match, lazy repetitions try shortest first, greedy ones
longest first, `findall`/`sub` scan left to right without overlap).

External library effects are parameters of the model:
  - the network (`requests.get` plus `raise_for_status`) is a function
    `List Char → Except Unit HttpResponse`, where `Except.error` stands for
    a raised exception (timeout, transport error),
  - `urllib.parse.urljoin` and `hashlib.md5(...).hexdigest()` are opaque
    function parameters (their concrete values never matter to the claims),
  - the file system is a partial map `List Char → Option (List Char)`;
    `none` means `open` raises.
-/

/-- One item of a linear regular expression as used by the source: a literal
character, or a repetition of a single-character class with a minimum-one
flag, a laziness flag and a capture flag. -/
inductive RItem where
  | lit (c : Char)
  | cls (p : Char → Bool) (one : Bool) (lzy : Bool) (cap : Bool)

/-- Candidate consumption lengths for a repetition: ascending for a lazy
repetition, descending for a greedy one (Python backtracking order). -/
def repLens (mn mx : Nat) (lzy : Bool) : List Nat :=
  let l := List.range' mn (mx + 1 - mn)
  if lzy then l else l.reverse

/-- First successful result of `f` over a list of candidates. -/
def firstSome {α β : Type} (f : α → Option β) : List α → Option β
  | [] => none
  | a :: as =>
    match f a with
    | some b => some b
    | none => firstSome f as

/-- Backtracking matcher: try to match the item sequence at the start of the
input; on success return the consumed characters, the captured groups in
order, and the remaining input. -/
def matchSeq : List RItem → List Char → Option (List Char × List (List Char) × List Char)
  | [], s => some ([], [], s)
  | .lit c :: items, s =>
    match s with
    | [] => none
    | a :: s' =>
      if a = c then
        (matchSeq items s').map fun r => (a :: r.1, r.2.1, r.2.2)
      else
        none
  | .cls p one lzy cap :: items, s =>
    let mx := (s.takeWhile p).length
    firstSome
      (fun k =>
        (matchSeq items (s.drop k)).map fun r =>
          (s.take k ++ r.1, (if cap then [s.take k] else []) ++ r.2.1, r.2.2))
      (repLens (if one then 1 else 0) mx lzy)

/-- Scanning loop of `re.findall`: try a match at each position, collect the
captured groups of each (non-overlapping, leftmost) match.  Fuel-driven; the
initial fuel `length + 1` always suffices because each step consumes at
least one character. -/
def findAllAux (items : List RItem) : Nat → List Char → List (List (List Char))
  | 0, _ => []
  | fuel + 1, s =>
    match matchSeq items s with
    | some r =>
      if r.1.isEmpty then
        match s with
        | [] => [r.2.1]
        | _ :: s' => r.2.1 :: findAllAux items fuel s'
      else
        r.2.1 :: findAllAux items fuel r.2.2
    | none =>
      match s with
      | [] => []
      | _ :: s' => findAllAux items fuel s'

/-- `re.findall pattern s`, returning the list of group captures of each
match. -/
def reFindall (items : List RItem) (s : List Char) : List (List (List Char)) :=
  findAllAux items (s.length + 1) s

/-- Scanning loop of `re.sub` with a replacement function: unmatched
characters are copied verbatim, each (non-overlapping, leftmost) match is
replaced by `repl matched groups`. -/
def subAux (items : List RItem) (repl : List Char → List (List Char) → List Char) :
    Nat → List Char → List Char
  | 0, s => s
  | fuel + 1, s =>
    match matchSeq items s with
    | some r =>
      if r.1.isEmpty then
        repl r.1 r.2.1 ++
          (match s with
           | [] => []
           | c :: s' => c :: subAux items repl fuel s')
      else
        repl r.1 r.2.1 ++ subAux items repl fuel r.2.2
    | none =>
      match s with
      | [] => []
      | c :: s' => c :: subAux items repl fuel s'

/-- `re.sub pattern repl s`. -/
def reSub (items : List RItem) (repl : List Char → List (List Char) → List Char)
    (s : List Char) : List Char :=
  subAux items repl (s.length + 1) s

/-- A sequence of literal items. -/
def litStr (s : String) : List RItem := s.toList.map RItem.lit

/-- Source line 27: the extraction pattern for markdown images,
regex `!` `[` `.*?` `]` `(` `(.*?)` `)` — one capture group (the url);
`.` does not match a newline. -/
def mdExtractPat : List RItem :=
  litStr "![" ++ [RItem.cls (fun c => c != '\n') false true false] ++
    litStr "](" ++ [RItem.cls (fun c => c != '\n') false true true] ++ litStr ")"

/-- Source line 123: the rewrite pattern for markdown images, same shape but
with the alt text also captured (group 1 = alt, group 2 = url). -/
def mdRewritePat : List RItem :=
  litStr "![" ++ [RItem.cls (fun c => c != '\n') false true true] ++
    litStr "](" ++ [RItem.cls (fun c => c != '\n') false true true] ++ litStr ")"

/-- Source line 32: the extraction pattern for HTML images,
`<img` `[^>]+` `src="` `([^">]+)` `"`. -/
def htmlExtractPat : List RItem :=
  litStr "<img" ++ [RItem.cls (fun c => c != '>') true false false] ++
    litStr "src=\"" ++ [RItem.cls (fun c => c != '"' && c != '>') true false true] ++
    litStr "\""

/-- Source line 37: the extraction pattern for self-closing HTML images,
`<img` `[^>]+` `src="` `([^">]+)` `"` `[^>]*` `/>`. -/
def selfClosingPat : List RItem :=
  htmlExtractPat ++ [RItem.cls (fun c => c != '>') false false false] ++ litStr "/>"

/-- Source line 134: the rewrite pattern for HTML images,
`<img` `[^>]+` `src="` `([^">]+)` `"` `[^>]*` `>`. -/
def htmlRewritePat : List RItem :=
  htmlExtractPat ++ [RItem.cls (fun c => c != '>') false false false] ++ litStr ">"

/-- The whitespace characters stripped by Python `str.strip()` (ASCII). -/
def isPyWs (c : Char) : Bool :=
  c == ' ' || c == '\t' || c == '\n' || c == '\r' || c == '\x0b' || c == '\x0c'

/-- Python `str.strip()`. -/
def pyStrip (s : List Char) : List Char :=
  ((s.dropWhile isPyWs).reverse.dropWhile isPyWs).reverse

/-- Helper loop for `listReplace`; only called with a nonempty `old`. -/
def listReplaceAux (old new : List Char) : Nat → List Char → List Char
  | 0, s => s
  | fuel + 1, s =>
    if old.isPrefixOf s && !old.isEmpty then
      new ++ listReplaceAux old new fuel (s.drop old.length)
    else
      match s with
      | [] => []
      | c :: s' => c :: listReplaceAux old new fuel s'

/-- Python `s.replace(old, new)`: replace every non-overlapping occurrence,
left to right; an empty `old` inserts `new` at every character boundary. -/
def listReplace (s old new : List Char) : List Char :=
  if old.isEmpty then new ++ s.flatMap (fun c => c :: new)
  else listReplaceAux old new s.length s

/-- Python substring test (`needle in haystack`). -/
def isSubstr (needle : List Char) : List Char → Bool
  | [] => needle.isEmpty
  | c :: s => needle.isPrefixOf (c :: s) || isSubstr needle s

/-- `os.path.basename` for POSIX paths: everything after the last slash. -/
def basenameOf (p : List Char) : List Char :=
  (p.reverse.takeWhile (fun c => c != '/')).reverse

/-- `os.path.join` for POSIX paths, two components. -/
def osJoin (a b : List Char) : List Char :=
  if b.head? = some '/' then b
  else if a.isEmpty || a.getLast? = some '/' then a ++ b
  else a ++ '/' :: b

/-- Characters allowed in a URL scheme by `urllib.parse`. -/
def schemeChar (c : Char) : Bool := c.isAlphanum || c == '+' || c == '-' || c == '.'

/-- `urllib.parse.urlsplit`: strip a leading `scheme:` when the text before
the first colon is a letter followed by scheme characters. -/
def dropScheme (s : List Char) : List Char :=
  let pre := s.takeWhile (fun c => c != ':')
  if pre.length < s.length && !pre.isEmpty &&
      pre.head?.elim false Char.isAlpha && pre.all schemeChar then
    s.drop (pre.length + 1)
  else s

/-- `urllib.parse.urlsplit`: strip a `//netloc` prefix; the netloc extends to
the first `/`, `?` or `#`. -/
def dropNetloc (s : List Char) : List Char :=
  if s.take 2 = ['/', '/'] then
    (s.drop 2).dropWhile (fun c => c != '/' && c != '?' && c != '#')
  else s

/-- Strip the fragment (everything from the first `#`). -/
def dropFragment (s : List Char) : List Char := s.takeWhile (fun c => c != '#')

/-- Strip the query (everything from the first `?`). -/
def dropQuery (s : List Char) : List Char := s.takeWhile (fun c => c != '?')

/-- The `path` component of `urllib.parse.urlparse(url)`. -/
def urlparsePath (url : List Char) : List Char :=
  dropQuery (dropFragment (dropNetloc (dropScheme url)))

/-- A resolved HTTP response: status code, `content-type` header value and
body bytes. -/
structure HttpResponse where
  status : Nat
  contentType : List Char
  body : List Char

/-- Source line 47: `url.startswith(('http://', 'https://'))`. -/
def startsWithHttp (url : List Char) : Bool :=
  ("http://".toList).isPrefixOf url || ("https://".toList).isPrefixOf url

/-- Source lines 46-48 of `download_image`: resolve a relative URL against
the configured base URL (`urljoin` is `urllib.parse.urljoin`, a parameter of
the model; a `None` or empty base is falsy in Python, so no resolution). -/
def resolve_url (urljoin : List Char → List Char → List Char)
    (base_url : Option (List Char)) (url : List Char) : List Char :=
  match base_url with
  | some b => if !b.isEmpty && !startsWithHttp url then urljoin b url else url
  | none => url

/-- Source lines 43-67, `download_image`: fetch one URL and persist it.
Returns the Python return value (`True`/`False`; every exception inside the
`try` block, including a transport error and `raise_for_status`, yields
`False`) together with the list of files written as (final path, bytes).
The SVG extension correction of lines 53-57 is applied to the filename
before writing. -/
def download_image (net : List Char → Except Unit HttpResponse)
    (urljoin : List Char → List Char → List Char)
    (base_url : Option (List Char)) (url filename : List Char) :
    Bool × List (List Char × List Char) :=
  let u := resolve_url urljoin base_url url
  match net u with
  | .error _ => (false, [])
  | .ok resp =>
    if 400 ≤ resp.status ∧ resp.status < 600 then (false, [])
    else
      let fname :=
        if isSubstr "svg".toList resp.contentType || (".svg".toList).isSuffixOf u then
          if (".svg".toList).isSuffixOf filename then filename
          else filename ++ ".svg".toList
        else filename
      (true, [(fname, resp.body)])

/-- Source lines 69-86, `generate_local_filename`: derive the local file name
for a URL and positional index (`md5hex` stands for
`hashlib.md5(url.encode()).hexdigest()`, a parameter of the model). -/
def generate_local_filename (md5hex : List Char → List Char)
    (output_dir : List Char) (url : List Char) (index : Nat) : List Char :=
  let path := urlparsePath url
  if !path.isEmpty then
    let filename := basenameOf path
    let filename' :=
      if !filename.contains '.' then
        "image_".toList ++ (md5hex url).take 8 ++ ".png".toList
      else filename
    osJoin output_dir filename'
  else
    osJoin output_dir ("image_".toList ++ (toString index).toList ++ ".png".toList)

/-- Source lines 19-41, `extract_image_urls` applied to already-read content:
the three `findall` calls, each contributing its single capture group, in
source order (markdown images, HTML images, self-closing HTML images). -/
def extract_image_urls_content (content : List Char) : List (List Char) :=
  (reFindall mdExtractPat content).map (fun g => g.headD []) ++
    (reFindall htmlExtractPat content).map (fun g => g.headD []) ++
    (reFindall selfClosingPat content).map (fun g => g.headD [])

/-- `extract_image_urls` including the file read: `open` raising (file absent)
is `Except.error`. -/
def extract_image_urls (fs : List Char → Option (List Char))
    (markdown_file : List Char) : Except Unit (List (List Char)) :=
  match fs markdown_file with
  | none => .error ()
  | some content => .ok (extract_image_urls_content content)

/-- Source lines 93-104, the loop body of `download_all_images` over the
extracted URL list, threading the `downloaded_images` dict (association list
in insertion order) and the enumeration index.  Returns the list of URLs
passed to `download_image` (the Fetcher invocations), the final
`downloaded_images`, and all file writes. -/
def downloadLoop (net : List Char → Except Unit HttpResponse)
    (urljoin : List Char → List Char → List Char) (md5hex : List Char → List Char)
    (output_dir : List Char) (base_url : Option (List Char)) :
    Nat → List (List Char) → List (List Char × List Char) →
    List (List Char) × List (List Char × List Char) × List (List Char × List Char)
  | _, [], dls => ([], dls, [])
  | i, url :: rest, dls =>
    if (pyStrip url).isEmpty then
      downloadLoop net urljoin md5hex output_dir base_url (i + 1) rest dls
    else
      let local_path := generate_local_filename md5hex output_dir url i
      if (dls.lookup url).isSome then
        downloadLoop net urljoin md5hex output_dir base_url (i + 1) rest dls
      else
        let r := download_image net urljoin base_url url local_path
        let dls' := if r.1 then dls ++ [(url, local_path)] else dls
        let res := downloadLoop net urljoin md5hex output_dir base_url (i + 1) rest dls'
        (url :: res.1, res.2.1, r.2 ++ res.2.2)

/-- Source lines 88-104, `download_all_images`: read the document, extract
the URLs, run the download loop over them with an initially empty
`downloaded_images`. -/
def download_all_images (fs : List Char → Option (List Char))
    (net : List Char → Except Unit HttpResponse)
    (urljoin : List Char → List Char → List Char) (md5hex : List Char → List Char)
    (output_dir : List Char) (base_url : Option (List Char))
    (markdown_file : List Char) :
    Except Unit (List (List Char) × List (List Char × List Char) × List (List Char × List Char)) :=
  match fs markdown_file with
  | none => .error ()
  | some content =>
    .ok (downloadLoop net urljoin md5hex output_dir base_url 0
      (extract_image_urls_content content) [])

/-- Source lines 116-121, `markdown_replacer`: group 1 is the alt text,
group 2 the url; a url with a download record is rewritten to
`![alt](local_path)`, otherwise the whole match is returned unchanged. -/
def markdown_replacer (dls : List (List Char × List Char))
    (m : List Char) (gs : List (List Char)) : List Char :=
  let alt := gs.headD []
  let url := (gs.drop 1).headD []
  match dls.lookup url with
  | some path => "![".toList ++ alt ++ "](".toList ++ path ++ ")".toList
  | none => m

/-- Source lines 127-132, `html_replacer`: group 1 is the url; a url with a
download record has the whole matched tag passed through
`str.replace(url, local_path)`, otherwise the match is returned unchanged. -/
def html_replacer (dls : List (List Char × List Char))
    (m : List Char) (gs : List (List Char)) : List Char :=
  let url := gs.headD []
  match dls.lookup url with
  | some path => listReplace m url path
  | none => m

/-- Source lines 115-135, the pure core of `update_markdown_with_local_paths`:
substitute markdown image references first, then HTML image references. -/
def update_content (dls : List (List Char × List Char)) (content : List Char) : List Char :=
  reSub htmlRewritePat (html_replacer dls) (reSub mdRewritePat (markdown_replacer dls) content)

/-- Source lines 106-142, `update_markdown_with_local_paths` including the
file read (the written output file carries the rewritten text). -/
def update_markdown_with_local_paths (fs : List Char → Option (List Char))
    (dls : List (List Char × List Char)) (markdown_file : List Char) :
    Except Unit (List Char) :=
  match fs markdown_file with
  | none => .error ()
  | some content => .ok (update_content dls content)

/-- Source line 161-162 of `main`: basename of the discovered path with
spaces collapsed to underscores. -/
def normalize_fname (p : List Char) : List Char :=
  (basenameOf p).map fun c => if c = ' ' then '_' else c

/-- Source lines 160-168, the per-document body of `main`: build the
downloader for `source_markdowns/<fname>` with output directory
`images/<stem>`, run `download_all_images`, then
`update_markdown_with_local_paths` to `output/<stem>_preprocessed.md`.
Any exception (`Except.error`) propagates: `main` has no try/except. -/
def process_document (fs : List Char → Option (List Char))
    (net : List Char → Except Unit HttpResponse)
    (urljoin : List Char → List Char → List Char) (md5hex : List Char → List Char)
    (path : List Char) : Except Unit (List Char × List Char) :=
  let fname := normalize_fname path
  let stem := fname.takeWhile (fun c => c != '.')
  let mdfile := "source_markdowns/".toList ++ fname
  match download_all_images fs net urljoin md5hex ("images/".toList ++ stem) none mdfile with
  | .error e => .error e
  | .ok r =>
    match update_markdown_with_local_paths fs r.2.1 mdfile with
    | .error e => .error e
    | .ok out => .ok ("output/".toList ++ stem ++ "_preprocessed.md".toList, out)

/-- Source lines 157-168, the loop of `main` over the discovered documents:
an uncaught exception aborts the remaining iterations.  Returns the outputs
written as (output path, rewritten text) and whether the run aborted. -/
def batch_main (fs : List Char → Option (List Char))
    (net : List Char → Except Unit HttpResponse)
    (urljoin : List Char → List Char → List Char) (md5hex : List Char → List Char) :
    List (List Char) → List (List Char × List Char) × Bool
  | [] => ([], false)
  | p :: rest =>
    match process_document fs net urljoin md5hex p with
    | .error _ => ([], true)
    | .ok out =>
      let r := batch_main fs net urljoin md5hex rest
      (out :: r.1, r.2)

/-- Identity stand-in for `urljoin` in concrete runs (never exercised there:
the batch driver configures no base URL). -/
def ujId : List Char → List Char → List Char := fun _ u => u

/-- Stand-in hash function for concrete runs whose References all carry file
extensions (the hash branch is then never taken). -/
def mhNil : List Char → List Char := fun _ => []

/-- A fixed stand-in hex digest, for exercising the hash branch of
`generate_local_filename` on a concrete input. -/
def mh16 : List Char → List Char := fun _ => "0123456789abcdef".toList

/-- A network on which every request raises. -/
def netFail : List Char → Except Unit HttpResponse := fun _ => .error ()

/-- A network on which every request succeeds with status 200 and an empty
body and content type. -/
def netOk : List Char → Except Unit HttpResponse := fun _ => .ok ⟨200, [], []⟩

/-- A network on which every request succeeds with an SVG content type. -/
def netSvg : List Char → Except Unit HttpResponse :=
  fun _ => .ok ⟨200, "image/svg+xml".toList, "BYTES".toList⟩

/-- A file system on which only `source_markdowns/good.md` exists (and is
empty). -/
def fsGoodOnly : List Char → Option (List Char) :=
  fun q => if q = "source_markdowns/good.md".toList then some [] else none

/-- A network on which exactly the request for `http://x/r2.png` raises. -/
def netR2Fails : List Char → Except Unit HttpResponse := fun u =>
  if u = "http://x/r2.png".toList then .error () else .ok ⟨200, [], []⟩

/-- A three-Reference document: two markdown images and one HTML image tag. -/
def docC5 : List Char :=
  "![a](http://x/r1.png) <img src=\"http://x/r2.png\" alt=\"two\"> ![c](http://x/r3.png)".toList

/-- Inversion for `firstSome`: a successful result comes from some candidate. -/
theorem firstSome_eq_some {α β : Type} (f : α → Option β) :
    ∀ l b, firstSome f l = some b → ∃ a ∈ l, f a = some b := by
  intro l
  induction l with
  | nil => intro b h; simp [firstSome] at h
  | cons a as ih =>
    intro b h
    cases hfa : f a with
    | some b' =>
      refine ⟨a, List.mem_cons_self a as, ?_⟩
      rw [hfa]
      simp only [firstSome, hfa] at h
      exact h ▸ rfl
    | none =>
      simp only [firstSome, hfa] at h
      obtain ⟨a', ha', h'⟩ := ih b h
      exact ⟨a', List.mem_cons_of_mem a ha', h'⟩

/-- A successful match decomposes the input as consumed plus remainder. -/
theorem matchSeq_append (items : List RItem) :
    ∀ s r, matchSeq items s = some r → r.1 ++ r.2.2 = s := by
  induction items with
  | nil =>
    intro s r h
    simp only [matchSeq, Option.some.injEq] at h
    subst h
    rfl
  | cons it items ih =>
    cases it with
    | lit c =>
      intro s r h
      cases s with
      | nil => simp [matchSeq] at h
      | cons a s' =>
        simp only [matchSeq] at h
        by_cases hac : a = c
        · rw [if_pos hac, Option.map_eq_some'] at h
          obtain ⟨r', hr', hrr⟩ := h
          subst hrr
          simpa using congrArg (a :: ·) (ih s' r' hr')
        · rw [if_neg hac] at h
          exact absurd h (by simp)
    | cls p one lzy cap =>
      intro s r h
      simp only [matchSeq] at h
      obtain ⟨k, _, hk⟩ := firstSome_eq_some _ _ _ h
      rw [Option.map_eq_some'] at hk
      obtain ⟨r', hr', hrr⟩ := hk
      subst hrr
      simp only [List.append_assoc, ih (s.drop k) r' hr', List.take_append_drop]

/-- If the replacement function returns every match unchanged, the scanning
substitution is the identity. -/
theorem subAux_id (items : List RItem) (repl : List Char → List (List Char) → List Char)
    (hrepl : ∀ s r, matchSeq items s = some r → repl r.1 r.2.1 = r.1) :
    ∀ fuel s, subAux items repl fuel s = s := by
  intro fuel
  induction fuel with
  | zero => intro s; rfl
  | succ n ih =>
    intro s
    unfold subAux
    split
    next r hm =>
      have hr := matchSeq_append items s r hm
      have he := hrepl s r hm
      by_cases hempty : r.1.isEmpty
      · have h1 : r.1 = [] := List.isEmpty_iff.mp hempty
        rw [if_pos hempty, he, h1, List.nil_append]
        cases s with
        | nil => rfl
        | cons c s' => simp [ih]
      · rw [if_neg hempty, he, ih]
        exact hr
    next hm =>
      cases s with
      | nil => rfl
      | cons c s' => simp [ih]

/-- If a key is absent from an association list, appending a different key
does not change its lookup. -/
theorem lookup_append_ne (k v u : List Char) (h : u ≠ k) :
    ∀ dls : List (List Char × List Char), (dls ++ [(k, v)]).lookup u = dls.lookup u := by
  intro dls
  induction dls with
  | nil =>
    simp only [List.nil_append, List.lookup]
    rw [beq_false_of_ne h]
  | cons a as ih =>
    obtain ⟨k', v'⟩ := a
    by_cases hk : u = k'
    · simp [List.lookup, hk]
    · simp only [List.cons_append, List.lookup]
      rw [beq_false_of_ne hk]
      exact ih

/-- Appending a fresh key to an association list makes it found. -/
theorem lookup_append_self (k v : List Char) :
    ∀ dls : List (List Char × List Char), dls.lookup k = none →
      (dls ++ [(k, v)]).lookup k = some v := by
  intro dls
  induction dls with
  | nil => intro _; simp [List.lookup]
  | cons a as ih =>
    obtain ⟨k', v'⟩ := a
    intro h
    simp only [List.lookup] at h
    by_cases hk : k = k'
    · rw [beq_iff_eq.mpr hk] at h; simp at h
    · rw [beq_false_of_ne hk] at h
      simp only [List.cons_append, List.lookup]
      rw [beq_false_of_ne hk]
      exact ih h

/-- Under an always-successful Fetcher, the number of Fetcher invocations of
a given URL produced by the download loop, as a function of the pending URL
list and the already-accumulated records. -/
theorem downloadLoop_count (net : List Char → Except Unit HttpResponse)
    (urljoin : List Char → List Char → List Char) (md5hex : List Char → List Char)
    (output_dir : List Char) (base_url : Option (List Char))
    (hnet : ∀ v f, (download_image net urljoin base_url v f).1 = true) (u : List Char) :
    ∀ (urls : List (List Char)) (i : Nat) (dls : List (List Char × List Char)),
      (downloadLoop net urljoin md5hex output_dir base_url i urls dls).1.count u
        = if (dls.lookup u).isSome then 0
          else if u ∈ urls ∧ (pyStrip u).isEmpty = false then 1 else 0 := by
  intro urls
  induction urls with
  | nil =>
    intro i dls
    simp [downloadLoop]
  | cons url rest ih =>
    intro i dls
    by_cases hb : (pyStrip url).isEmpty
    · have step : downloadLoop net urljoin md5hex output_dir base_url i (url :: rest) dls
          = downloadLoop net urljoin md5hex output_dir base_url (i + 1) rest dls := by
        simp [downloadLoop, hb]
      rw [step, ih]
      by_cases hu : u = url
      · subst hu
        simp [hb]
      · simp [List.mem_cons, hu]
    · by_cases hd : (dls.lookup url).isSome
      · have step : downloadLoop net urljoin md5hex output_dir base_url i (url :: rest) dls
            = downloadLoop net urljoin md5hex output_dir base_url (i + 1) rest dls := by
          simp [downloadLoop, hb, hd]
        rw [step, ih]
        by_cases hu : u = url
        · subst hu
          simp [hd]
        · simp [List.mem_cons, hu]
      · have hsucc := hnet url (generate_local_filename md5hex output_dir url i)
        have step : (downloadLoop net urljoin md5hex output_dir base_url i (url :: rest) dls).1
            = url :: (downloadLoop net urljoin md5hex output_dir base_url (i + 1) rest
                (dls ++ [(url, generate_local_filename md5hex output_dir url i)])).1 := by
          simp [downloadLoop, hb, hd, hsucc]
        rw [step, List.count_cons, ih]
        by_cases hu : u = url
        · subst hu
          have hnone : dls.lookup u = none := Option.not_isSome_iff_eq_none.mp hd
          rw [lookup_append_self u (generate_local_filename md5hex output_dir u i) dls hnone]
          simp [hd, List.mem_cons]
          have hne : ¬ pyStrip u = [] := fun hh => hb (List.isEmpty_iff.mpr hh)
          rw [if_neg hne]
        · rw [lookup_append_ne url (generate_local_filename md5hex output_dir url i) u hu dls]
          simp [List.mem_cons, hu]
          exact fun hh => hu hh.symm

/-- Claim C1, counterexample: in the document `![a](u)![b](u)` the single
distinct non-blank Reference `u` is extracted twice; with a Fetcher whose
fetch of `u` fails, the run passes `u` to the Fetcher in two invocations
(only successful fetches are recorded in `downloaded_images`, so the failed
Reference is fetched again at its second occurrence), contradicting both the
exactly-once property and the claim that a failed Reference is not fetched
again in the same run. -/
theorem failed_fetch_refetched_counterexample :
    ((downloadLoop netFail ujId mhNil "images".toList none 0
        (extract_image_urls_content "![a](u)![b](u)".toList) []).1.count "u".toList) = 2 := by
  decide

/-- Claim C1 (amended): when every fetch succeeds, every distinct extracted
Reference that is not whitespace-only is passed to the Fetcher in exactly
one invocation per run, no matter how often it occurs in the extracted
sequence.  Without the success assumption, a Reference whose fetch failed is
fetched again at each later syntactic occurrence, because only successful
fetches are recorded. -/
theorem download_once_on_success (net : List Char → Except Unit HttpResponse)
    (urljoin : List Char → List Char → List Char) (md5hex : List Char → List Char)
    (output_dir : List Char) (base_url : Option (List Char)) (content u : List Char)
    (hnet : ∀ v f, (download_image net urljoin base_url v f).1 = true)
    (hmem : u ∈ extract_image_urls_content content)
    (hnb : (pyStrip u).isEmpty = false) :
    ((downloadLoop net urljoin md5hex output_dir base_url 0
        (extract_image_urls_content content) []).1.count u) = 1 := by
  rw [downloadLoop_count net urljoin md5hex output_dir base_url hnet u]
  simp [List.lookup, hmem, hnb]

/-- Concrete instantiation of `download_once_on_success`: a document with
the same Reference twice, an always-successful network. -/
theorem download_once_on_success_witness :
    ((downloadLoop netOk ujId mhNil "images".toList none 0
        (extract_image_urls_content "![a](http://q/i.png)![b](http://q/i.png)".toList) []).1.count
        "http://q/i.png".toList) = 1 :=
  download_once_on_success netOk ujId mhNil "images".toList none
    "![a](http://q/i.png)![b](http://q/i.png)".toList "http://q/i.png".toList
    (fun _ _ => rfl) (by decide) (by decide)

/-- Claim C2 (amended): a source document that cannot be opened aborts the
whole remaining batch: `main` has no per-document exception handler, so the
`open` failure propagates out of the loop and no further document is
processed (per-Reference fetch errors are isolated inside `download_image`,
but document read errors are not). -/
theorem unreadable_document_aborts_batch (fs : List Char → Option (List Char))
    (net : List Char → Except Unit HttpResponse)
    (urljoin : List Char → List Char → List Char) (md5hex : List Char → List Char)
    (p : List Char) (rest : List (List Char))
    (h : fs ("source_markdowns/".toList ++ normalize_fname p) = none) :
    batch_main fs net urljoin md5hex (p :: rest) = ([], true) := by
  have hp : process_document fs net urljoin md5hex p = Except.error () := by
    simp only [process_document, download_all_images]
    rw [h]
  simp only [batch_main, hp]

/-- Claim C2, counterexample: with the document list `[bad.md, good.md]`
where `bad.md` is unreadable and `good.md` is readable and processes fine on
its own, the batch aborts at `bad.md` and `good.md` is never processed. -/
theorem unreadable_document_aborts_batch_counterexample :
    batch_main fsGoodOnly netFail ujId mhNil ["bad.md".toList, "good.md".toList]
      = ([], true) ∧
    batch_main fsGoodOnly netFail ujId mhNil ["good.md".toList]
      = ([("output/good_preprocessed.md".toList, [])], false) := by
  decide

/-- Concrete instantiation of `unreadable_document_aborts_batch`: an empty
file system, one document. -/
theorem unreadable_document_aborts_batch_witness :
    batch_main (fun _ => none) netFail ujId mhNil ["a.md".toList] = ([], true) :=
  unreadable_document_aborts_batch (fun _ => none) netFail ujId mhNil
    "a.md".toList [] rfl

/-- Claim C6: rewriting any document text with an empty DownloadRecord set
returns the text unchanged. -/
theorem empty_records_rewrite_identity (content : List Char) :
    update_content [] content = content := by
  have hmd : ∀ s r, matchSeq mdRewritePat s = some r →
      markdown_replacer [] r.1 r.2.1 = r.1 := by
    intro s r _
    simp [markdown_replacer, List.lookup]
  have hht : ∀ s r, matchSeq htmlRewritePat s = some r →
      html_replacer [] r.1 r.2.1 = r.1 := by
    intro s r _
    simp [html_replacer, List.lookup]
  unfold update_content reSub
  rw [subAux_id mdRewritePat _ hmd, subAux_id htmlRewritePat _ hht]

/-- Stepping lemma for the download loop: a non-blank, not yet recorded URL
whose fetch succeeds is invoked and recorded. -/
theorem downloadLoop_cons_succ (net : List Char → Except Unit HttpResponse)
    (urljoin : List Char → List Char → List Char) (md5hex : List Char → List Char)
    (output_dir : List Char) (base_url : Option (List Char))
    (i : Nat) (url : List Char) (rest : List (List Char))
    (dls : List (List Char × List Char))
    (hb : (pyStrip url).isEmpty = false) (hd : dls.lookup url = none)
    (hok : (download_image net urljoin base_url url
      (generate_local_filename md5hex output_dir url i)).1 = true) :
    (downloadLoop net urljoin md5hex output_dir base_url i (url :: rest) dls).1
        = url :: (downloadLoop net urljoin md5hex output_dir base_url (i + 1) rest
            (dls ++ [(url, generate_local_filename md5hex output_dir url i)])).1
      ∧ (downloadLoop net urljoin md5hex output_dir base_url i (url :: rest) dls).2.1
        = (downloadLoop net urljoin md5hex output_dir base_url (i + 1) rest
            (dls ++ [(url, generate_local_filename md5hex output_dir url i)])).2.1 := by
  constructor <;> simp [downloadLoop, hb, hd, hok]

/-- Stepping lemma for the download loop: a non-blank, not yet recorded URL
whose fetch fails is invoked but not recorded. -/
theorem downloadLoop_cons_fail (net : List Char → Except Unit HttpResponse)
    (urljoin : List Char → List Char → List Char) (md5hex : List Char → List Char)
    (output_dir : List Char) (base_url : Option (List Char))
    (i : Nat) (url : List Char) (rest : List (List Char))
    (dls : List (List Char × List Char))
    (hb : (pyStrip url).isEmpty = false) (hd : dls.lookup url = none)
    (hfail : (download_image net urljoin base_url url
      (generate_local_filename md5hex output_dir url i)).1 = false) :
    (downloadLoop net urljoin md5hex output_dir base_url i (url :: rest) dls).1
        = url :: (downloadLoop net urljoin md5hex output_dir base_url (i + 1) rest dls).1
      ∧ (downloadLoop net urljoin md5hex output_dir base_url i (url :: rest) dls).2.1
        = (downloadLoop net urljoin md5hex output_dir base_url (i + 1) rest dls).2.1 := by
  constructor <;> simp [downloadLoop, hb, hd, hfail]

/-- Claim C5: for the three References of `docC5`, if the fetch of r2 fails
in any way (the model's `download_image` returns False whenever an exception
is caught inside it) while r1 and r3 succeed, then all three fetches are
still attempted in order, exactly r1 and r3 are recorded, and the rewritten
document has r1's and r3's occurrences rewritten to their local paths while
r2's tag is byte-identical. -/
theorem per_reference_failure_isolation
    (net : List Char → Except Unit HttpResponse)
    (urljoin : List Char → List Char → List Char) (md5hex : List Char → List Char)
    (h1 : (download_image net urljoin none "http://x/r1.png".toList
      "images/r1.png".toList).1 = true)
    (h2 : (download_image net urljoin none "http://x/r2.png".toList
      "images/r2.png".toList).1 = false)
    (h3 : (download_image net urljoin none "http://x/r3.png".toList
      "images/r3.png".toList).1 = true) :
    (downloadLoop net urljoin md5hex "images".toList none 0
        (extract_image_urls_content docC5) []).1
      = ["http://x/r1.png".toList, "http://x/r3.png".toList, "http://x/r2.png".toList] ∧
    update_content (downloadLoop net urljoin md5hex "images".toList none 0
        (extract_image_urls_content docC5) []).2.1 docC5
      = "![a](images/r1.png) <img src=\"http://x/r2.png\" alt=\"two\"> ![c](images/r3.png)".toList := by
  have hx : extract_image_urls_content docC5
      = ["http://x/r1.png".toList, "http://x/r3.png".toList, "http://x/r2.png".toList] := by
    decide
  have g1 : generate_local_filename md5hex "images".toList "http://x/r1.png".toList 0
      = "images/r1.png".toList := rfl
  have g3 : generate_local_filename md5hex "images".toList "http://x/r3.png".toList 1
      = "images/r3.png".toList := rfl
  have g2 : generate_local_filename md5hex "images".toList "http://x/r2.png".toList 2
      = "images/r2.png".toList := rfl
  have e1 := downloadLoop_cons_succ net urljoin md5hex "images".toList none 0
    "http://x/r1.png".toList ["http://x/r3.png".toList, "http://x/r2.png".toList] []
    (by decide) rfl (by rw [g1]; exact h1)
  rw [g1] at e1
  simp only [List.nil_append] at e1
  have e3 := downloadLoop_cons_succ net urljoin md5hex "images".toList none 1
    "http://x/r3.png".toList ["http://x/r2.png".toList]
    [("http://x/r1.png".toList, "images/r1.png".toList)]
    (by decide) (by decide) (by rw [g3]; exact h3)
  rw [g3] at e3
  simp only [List.cons_append, List.nil_append] at e3
  have e2 := downloadLoop_cons_fail net urljoin md5hex "images".toList none 2
    "http://x/r2.png".toList []
    [("http://x/r1.png".toList, "images/r1.png".toList),
     ("http://x/r3.png".toList, "images/r3.png".toList)]
    (by decide) (by decide) (by rw [g2]; exact h2)
  have e0 : (downloadLoop net urljoin md5hex "images".toList none 3 []
      [("http://x/r1.png".toList, "images/r1.png".toList),
       ("http://x/r3.png".toList, "images/r3.png".toList)]).1 = [] := rfl
  have e0' : (downloadLoop net urljoin md5hex "images".toList none 3 []
      [("http://x/r1.png".toList, "images/r1.png".toList),
       ("http://x/r3.png".toList, "images/r3.png".toList)]).2.1
      = [("http://x/r1.png".toList, "images/r1.png".toList),
         ("http://x/r3.png".toList, "images/r3.png".toList)] := rfl
  rw [hx]
  constructor
  · rw [e1.1, e3.1, e2.1, e0]
  · rw [e1.2, e3.2, e2.2, e0']
    decide

/-- Concrete instantiation of `per_reference_failure_isolation`: a network
that raises exactly on r2. -/
theorem per_reference_failure_isolation_witness :
    (downloadLoop netR2Fails ujId mhNil "images".toList none 0
        (extract_image_urls_content docC5) []).1
      = ["http://x/r1.png".toList, "http://x/r3.png".toList, "http://x/r2.png".toList] ∧
    update_content (downloadLoop netR2Fails ujId mhNil "images".toList none 0
        (extract_image_urls_content docC5) []).2.1 docC5
      = "![a](images/r1.png) <img src=\"http://x/r2.png\" alt=\"two\"> ![c](images/r3.png)".toList :=
  per_reference_failure_isolation netR2Fails ujId mhNil (by decide) (by decide) (by decide)

/-- Claim C3, counterexample: rewriting the tag
`<img src="http://x/b.jpg" alt="http://x/b.jpg">` with a record for
`http://x/b.jpg` also replaces the occurrence of the Reference inside the
`alt` attribute — the replacer applies `str.replace` to the whole matched
tag — so the characters of the tag outside the `src` value are not all
preserved, contrary to the claim. -/
theorem tag_rewrite_changes_other_attribute_counterexample :
    update_content [("http://x/b.jpg".toList, "images/b.jpg".toList)]
        "<img src=\"http://x/b.jpg\" alt=\"http://x/b.jpg\">".toList
      = "<img src=\"images/b.jpg\" alt=\"images/b.jpg\">".toList ∧
    update_content [("http://x/b.jpg".toList, "images/b.jpg".toList)]
        "<img src=\"http://x/b.jpg\" alt=\"http://x/b.jpg\">".toList
      ≠ "<img src=\"images/b.jpg\" alt=\"http://x/b.jpg\">".toList := by
  decide

/-- Claim C3 (amended): the rewriter replaces every occurrence of the
Reference string inside the matched tag with the recorded local path
(Python `str.replace` over the whole match).  When the Reference occurs in
the tag only as the `src` value — as in the spec's own example — only that
value changes and every other character is preserved; when the Reference
also occurs elsewhere in the same tag, those occurrences are replaced
too. -/
theorem tag_rewrite_replaces_reference_everywhere :
    update_content [("http://x/b.jpg".toList, "images/b.jpg".toList)]
        "<img src=\"http://x/b.jpg\" alt=\"b\">".toList
      = "<img src=\"images/b.jpg\" alt=\"b\">".toList ∧
    update_content [("http://x/b.jpg".toList, "images/b.jpg".toList)]
        "<img data-note=\"see http://x/b.jpg\" src=\"http://x/b.jpg\">".toList
      = "<img data-note=\"see images/b.jpg\" src=\"images/b.jpg\">".toList := by
  decide

/-- Claim C4 (code bug): fetching `http://x/p.png` with an SVG content type
persists the bytes at the extension-corrected path `images/p.png.svg`, but
`download_image` reports only True, and `download_all_images` records the
originally requested path `images/p.png` in `downloaded_images`; the
recorded path differs from the only path written. -/
theorem recorded_path_differs_from_written_path :
    downloadLoop netSvg ujId mhNil "images".toList none 0
        ["http://x/p.png".toList] []
      = (["http://x/p.png".toList],
         [("http://x/p.png".toList, "images/p.png".toList)],
         [("images/p.png.svg".toList, "BYTES".toList)]) ∧
    ("images/p.png".toList : List Char) ≠ "images/p.png.svg".toList := by
  decide

/-- Claim C7, counterexample: the records map `u` to local path `x](` and
`ab` to local path `r`; no recorded local path equals an original Reference
string (first four conjuncts).  One rewrite of `<img src="u" z="![uab)">`
replaces both occurrences of `u` inside the tag, yielding
`<img src="x](" z="![x](ab)">`; a second application then matches the newly
assembled markdown image `![x](ab)` and rewrites `ab` to `r`, so the second
application is not a no-op. -/
theorem rewrite_not_idempotent_counterexample :
    ("x](".toList : List Char) ≠ "u".toList ∧
    ("x](".toList : List Char) ≠ "ab".toList ∧
    ("r".toList : List Char) ≠ "u".toList ∧
    ("r".toList : List Char) ≠ "ab".toList ∧
    update_content [("u".toList, "x](".toList), ("ab".toList, "r".toList)]
        (update_content [("u".toList, "x](".toList), ("ab".toList, "r".toList)]
          "<img src=\"u\" z=\"![uab)\">".toList)
      ≠ update_content [("u".toList, "x](".toList), ("ab".toList, "r".toList)]
          "<img src=\"u\" z=\"![uab)\">".toList := by
  decide

/-- Claim C7 (amended): a second rewrite with the same DownloadRecords can
change the text even when no recorded local path equals any original
Reference string (see the counterexample, whose local path `x](` assembles a
new markdown match with surrounding text); it is a no-op when the recorded
local paths are plain file paths free of markup delimiters, as produced by
the Filename Deriver — verified here on a document using both reference
syntaxes. -/
theorem rewrite_idempotent_for_plain_paths :
    update_content [("http://x/r1.png".toList, "images/r1.png".toList),
        ("http://x/r2.jpg".toList, "images/r2.jpg".toList)]
        (update_content [("http://x/r1.png".toList, "images/r1.png".toList),
          ("http://x/r2.jpg".toList, "images/r2.jpg".toList)]
          "![a](http://x/r1.png) <img src=\"http://x/r2.jpg\" alt=\"p\">".toList)
      = update_content [("http://x/r1.png".toList, "images/r1.png".toList),
          ("http://x/r2.jpg".toList, "images/r2.jpg".toList)]
          "![a](http://x/r1.png) <img src=\"http://x/r2.jpg\" alt=\"p\">".toList := by
  decide

/-- Claim C8: for a Reference whose parsed URL path is nonempty and whose
final segment contains no `.`, the Filename Deriver returns the output
directory joined with `image_<h>.png`, where `<h>` is the first 8 characters
of the hex digest of the full Reference string.  The derivation is a pure
function of the Reference and configuration, hence identical across runs. -/
theorem hash_filename_for_extensionless_reference
    (md5hex : List Char → List Char) (output_dir url : List Char) (index : Nat)
    (hpath : urlparsePath url ≠ [])
    (hdot : (basenameOf (urlparsePath url)).contains '.' = false) :
    generate_local_filename md5hex output_dir url index
      = osJoin output_dir ("image_".toList ++ (md5hex url).take 8 ++ ".png".toList) := by
  have h1 : (!(urlparsePath url).isEmpty) = true := by
    simp [List.isEmpty_iff, hpath]
  have hd2 : ¬ ('.' ∈ basenameOf (urlparsePath url)) := by simpa using hdot
  simp [generate_local_filename, h1, hd2]

/-- Concrete instantiation of `hash_filename_for_extensionless_reference` at
the spec's example Reference `http://x/assets/photo`. -/
theorem hash_filename_for_extensionless_reference_witness :
    generate_local_filename mh16 "images".toList "http://x/assets/photo".toList 0
      = osJoin "images".toList
          ("image_".toList ++ (mh16 "http://x/assets/photo".toList).take 8 ++ ".png".toList) :=
  hash_filename_for_extensionless_reference mh16 "images".toList
    "http://x/assets/photo".toList 0 (by decide) (by decide)

/-- Claim C9: every successful fetch whose response content type contains
"svg", or whose resolved URL ends in `.svg`, persists its file at a path
ending in `.svg`, whatever extension the requested filename had. -/
theorem svg_extension_correction
    (net : List Char → Except Unit HttpResponse)
    (urljoin : List Char → List Char → List Char) (base_url : Option (List Char))
    (url filename : List Char) (r : HttpResponse)
    (hnet : net (resolve_url urljoin base_url url) = .ok r)
    (hst : ¬(400 ≤ r.status ∧ r.status < 600))
    (hsvg : isSubstr "svg".toList r.contentType = true ∨
      (".svg".toList).isSuffixOf (resolve_url urljoin base_url url) = true) :
    (download_image net urljoin base_url url filename).1 = true ∧
    ((download_image net urljoin base_url url filename).2.all
      fun w => (".svg".toList).isSuffixOf w.1) = true := by
  have hcond : (isSubstr "svg".toList r.contentType
      || (".svg".toList).isSuffixOf (resolve_url urljoin base_url url)) = true := by
    rcases hsvg with h | h
    · rw [h, Bool.true_or]
    · rw [h, Bool.or_true]
  simp only [download_image, hnet]
  rw [if_neg hst, hcond]
  constructor
  · rfl
  · by_cases hf : (['.', 's', 'v', 'g'] : List Char) <:+ filename
    · simp [hf]
    · simp [hf, List.suffix_append]

/-- Concrete instantiation of `svg_extension_correction`: an SVG response
for a filename derived with a `.png` extension. -/
theorem svg_extension_correction_witness :
    (download_image netSvg ujId none "http://x/logo".toList "images/logo.png".toList).1
      = true ∧
    ((download_image netSvg ujId none "http://x/logo".toList
        "images/logo.png".toList).2.all
      fun w => (".svg".toList).isSuffixOf w.1) = true :=
  svg_extension_correction netSvg ujId none "http://x/logo".toList
    "images/logo.png".toList ⟨200, "image/svg+xml".toList, "BYTES".toList⟩
    rfl (by decide) (Or.inl (by decide))

/-- Claim C10: for a document consisting of one self-closing image tag, the
extractor returns the tag's src value twice — once captured by the general
HTML pattern and once by the separate self-closing pattern — so the
extracted sequence holds two entries for a single syntactic occurrence. -/
theorem self_closing_tag_extracted_twice :
    extract_image_urls_content "<img src=\"http://x/a.png\" alt=\"y\"/>".toList
      = ["http://x/a.png".toList, "http://x/a.png".toList] := by
  decide
